import Mathlib

/-!
Verification of the kubectl mediated-execution gateway
(`servers/kubernetes-remediation/kubernetes_remediation.py`).

The Python module is shallowly embedded: each Python function becomes a Lean
function over `String` / `List String`; `raise ValueError(...)` becomes
`Except.error` carrying the error category from the spec's taxonomy
(CommandNotAllowed, FlagNotPermitted, InvalidCharacters, ...); the
environment-derived configuration sets (`ALLOWED_COMMANDS`, `DANGEROUS_FLAGS`,
`ALLOWED_IMAGES`) become explicit parameters, with the documented defaults
given as concrete lists.  Python's `subprocess.run` and `json.loads` are
external libraries and are modelled as oracle parameters.
-/

namespace KubeRemediation

/-- Decidable equality on `Except`, used to settle concrete evaluations of the
embedded functions by `decide`. -/
instance {ε α : Type} [DecidableEq ε] [DecidableEq α] :
    DecidableEq (Except ε α) := fun x y =>
  match x, y with
  | .ok a, .ok b =>
    if h : a = b then .isTrue (by rw [h]) else .isFalse (by simp [h])
  | .error e, .error f =>
    if h : e = f then .isTrue (by rw [h]) else .isFalse (by simp [h])
  | .ok _, .error _ => .isFalse (by simp)
  | .error _, .ok _ => .isFalse (by simp)

/-- Error categories of the validation/normalization layer.  Each constructor
corresponds to one family of `raise ValueError(...)` sites in the source. -/
inductive Err where
  /-- raised by `validate_args` when the argument list is empty. -/
  | emptyArgs
  /-- raised by `validate_args` when only the literal "kubectl" was given. -/
  | emptyAfterKubectl
  /-- raised by `validate_args` when the subcommand is not in the allowlist. -/
  | commandNotAllowed
  /-- raised by `validate_args` for a dangerous flag or for `--overrides`. -/
  | flagNotPermitted
  /-- raised for a shell metacharacter in a token, a command argument, or a
  namespace value. -/
  | invalidCharacters
  /-- raised by `parse_args` when a string input is not valid JSON or does not
  decode to an array. -/
  | invalidInput
  /-- raised by `validate_pod_name` on the empty string. -/
  | podNameEmpty
  /-- raised by `validate_pod_name` on a leading hyphen. -/
  | podNameLeadingHyphen
  /-- raised by `validate_pod_name` on a non-alphanumeric, non-hyphen char. -/
  | podNameInvalidChar
  /-- raised by `validate_pod_name` when the name exceeds 253 characters. -/
  | podNameTooLong
  /-- raised by `validate_pod_name` when the first character is not a
  lowercase letter or a digit. -/
  | podNameBadStart
  /-- raised by `validate_image` when `ALLOWED_IMAGES` is empty. -/
  | featureDisabled
  /-- raised by `validate_image` when the image is not in the allowlist. -/
  | imageNotAllowed
deriving DecidableEq

/-- Default of `KUBECTL_ALLOWED_COMMANDS` (source line 38-40): the comma
split of "get,describe,logs,edit,patch,delete,scale,rollout,cordon,uncordon,drain,taint,label,annotate". -/
def defaultAllowedCommands : List String :=
  ["get", "describe", "logs", "edit", "patch", "delete", "scale", "rollout",
   "cordon", "uncordon", "drain", "taint", "label", "annotate"]

/-- Default of `KUBECTL_DANGEROUS_FLAGS` (source line 42-47): the comma split
of "--kubeconfig,--context,--cluster,--user,--token,--as,--as-group,--as-uid". -/
def defaultDangerousFlags : List String :=
  ["--kubeconfig", "--context", "--cluster", "--user", "--token", "--as",
   "--as-group", "--as-uid"]

/-- SHELL_CHARS (source line 56).  The Python literal is
`set(";|&$` + backtick, backslash, single quote, double quote + `\n\r")`;
written with `Char.ofNat` codes 96 (backtick), 92 (backslash),
39 (single quote) and 34 (double quote).  Note that the double quote IS a
member of this set as implemented. -/
def SHELL_CHARS : List Char :=
  [';', '|', '&', '$', Char.ofNat 96, Char.ofNat 92, Char.ofNat 39,
   Char.ofNat 34, '\n', '\r']

/-- Python `any(c in arg for c in SHELL_CHARS)` (source lines 106, 158, 294):
some reserved character occurs in the token. -/
def containsShellChar (arg : String) : Bool :=
  SHELL_CHARS.any (fun c => arg.toList.contains c)

/-- Python `arg.split("=")[0]` (source line 96): the part of the token before
the first `=`, or the whole token when it has no `=`. -/
def flagName (arg : String) : String :=
  String.mk (arg.toList.takeWhile (fun c => c ≠ '='))

/-- Loop body of `validate_args` (source lines 94-107) for one token: the
dangerous-flag check, the unconditional `--overrides` check, then the shell
metacharacter check, in source order. -/
def checkToken (dangerous : List String) (arg : String) : Except Err Unit :=
  let flag := flagName arg
  if dangerous.contains flag then .error .flagNotPermitted
  else if flag == "--overrides" then .error .flagNotPermitted
  else if containsShellChar arg then .error .invalidCharacters
  else .ok ()

/-- The `for arg in args` loop of `validate_args` (source lines 94-107). -/
def checkTokens (dangerous : List String) : List String → Except Err Unit
  | [] => .ok ()
  | a :: rest =>
    match checkToken dangerous a with
    | .ok _ => checkTokens dangerous rest
    | .error e => .error e

/-- Python `if args[0] == "kubectl": args = args[1:]` (source lines 79-80). -/
def stripKubectl (args : List String) : List String :=
  match args with
  | [] => []
  | a0 :: rest => if a0 == "kubectl" then rest else a0 :: rest

/-- Embedding of `validate_args` (source lines 68-109), parameterized by the
configured allowlist and dangerous-flag list. -/
def validate_args (allowed dangerous : List String) (args : List String) :
    Except Err (List String) :=
  match args with
  | [] => .error .emptyArgs
  | _ :: _ =>
    match stripKubectl args with
    | [] => .error .emptyAfterKubectl
    | command :: rest =>
      if allowed.contains command then
        match checkTokens dangerous (command :: rest) with
        | .ok _ => .ok (command :: rest)
        | .error e => .error e
      else .error .commandNotAllowed

/-- Embedding of `validate_command_args` (source lines 153-159). -/
def validate_command_args : List String → Except Err Unit
  | [] => .ok ()
  | a :: rest =>
    if containsShellChar a then .error .invalidCharacters
    else validate_command_args rest

/-- Python `name.startswith("-")` (source line 121), expressed on the
character list. -/
def startsWithHyphen (cs : List Char) : Bool :=
  match cs with
  | [] => false
  | c :: _ => c == '-'

/-- Python `re.match(r'^[a-z0-9]', name)` (source line 133): the first
character is an ASCII lowercase letter or digit. -/
def firstIsLowerOrDigit (cs : List Char) : Bool :=
  match cs with
  | [] => false
  | c :: _ => c.isLower || c.isDigit

/-- Embedding of `validate_pod_name` (source lines 112-134).  Python's
`c.isalnum()` is modelled by `Char.isAlphanum` (ASCII letters and digits);
the Python predicate additionally accepts non-ASCII alphanumerics, which no
claim depends on. -/
def validate_pod_name (name : String) : Except Err Unit :=
  if name.toList.isEmpty then .error .podNameEmpty
  else if startsWithHyphen name.toList then .error .podNameLeadingHyphen
  else if ! name.toList.all (fun c => c.isAlphanum || c == '-') then
    .error .podNameInvalidChar
  else if 253 < name.toList.length then .error .podNameTooLong
  else if ! firstIsLowerOrDigit name.toList then .error .podNameBadStart
  else .ok ()

/-- Embedding of `validate_image` (source lines 137-150), parameterized by
the configured `ALLOWED_IMAGES` (a set in Python; membership is exact string
equality either way). -/
def validate_image (allowedImages : List String) (image : String) :
    Except Err Unit :=
  if allowedImages.isEmpty then .error .featureDisabled
  else if ! allowedImages.contains image then .error .imageNotAllowed
  else .ok ()

/-- Outcome of one `subprocess.run` invocation, as seen by the caller:
normal completion with a return code and captured output, expiry of the
timeout (`subprocess.TimeoutExpired`), or any other raised exception such as
a spawn failure, carrying its message (`str(e)`). -/
inductive ProcOutcome where
  | completed (returncode : Int) (stdout stderr : String)
  | timedOut
  | raised (msg : String)

/-- Result dictionary shapes produced by `run_kubectl` (source lines
179-201): the normal-completion dictionary with a return code, or the
error dictionary with an error message and empty stdout/stderr. -/
inductive KResult where
  | result (success : Bool) (stdout stderr : String) (return_code : Int)
  | errorResult (success : Bool) (error : String) (stdout stderr : String)
deriving DecidableEq

/-- Embedding of `run_kubectl` (source lines 162-201).  The subprocess layer
is an oracle mapping the full argv (with the "kubectl" binary prepended,
source line 172) to a `ProcOutcome`; the function maps that outcome to the
structured result dictionary and never propagates an exception. -/
def run_kubectl (timeout : Nat) (args : List String)
    (proc : List String → ProcOutcome) : KResult :=
  match proc ("kubectl" :: args) with
  | .completed rc out err => .result (rc == 0) out err rc
  | .timedOut =>
    .errorResult false
      ("Command timed out after " ++ toString timeout ++ " seconds") "" ""
  | .raised msg => .errorResult false msg "" ""

/-- Reserved metacharacter set as the SPEC describes it: the nine characters
semicolon, pipe, ampersand, dollar, backtick (96), backslash (92), single
quote (39), carriage return, line feed.  Stated from the spec's words for
comparison with the implementation's `SHELL_CHARS`, which additionally
contains the double quote. -/
def specReservedChars : List Char :=
  [';', '|', '&', '$', Char.ofNat 96, Char.ofNat 92, Char.ofNat 39,
   '\r', '\n']

/-- A token contains one of the spec's nine reserved metacharacters. -/
def containsSpecReserved (arg : String) : Bool :=
  specReservedChars.any (fun c => arg.toList.contains c)

/-- A token passes both flag checks of `validate_args`: its flag name is not
in the dangerous list and is not the always-blocked `--overrides`. -/
def flagOk (dangerous : List String) (t : String) : Prop :=
  dangerous.contains (flagName t) = false ∧ flagName t ≠ "--overrides"

instance (dangerous : List String) (t : String) :
    Decidable (flagOk dangerous t) := by
  unfold flagOk; infer_instance

/-- JSON values as Python's `json.loads` can produce them, restricted to the
shapes the claims exercise: strings, numbers and (nested) arrays.  The
`kubectl` tool's argument is `Union[str, List[str]]`, but a JSON-encoded
string can decode to a list with non-string elements, so the element type
must stay dynamic. -/
inductive JVal where
  | str (s : String)
  | num (n : Int)
  | arr (elems : List JVal)

/-- Python `==` between a value of unknown type and a string literal: equal
strings compare equal, any non-string value compares unequal. -/
def jvalEqStr (v : JVal) (s : String) : Bool :=
  match v with
  | .str t => t == s
  | _ => false

/-- Faults a Python call can raise: a `ValueError` (caught by the tool's
handler) or a dynamic-typing fault — `AttributeError` from calling `.split`
on a non-string, `TypeError` from hashing an unhashable value — which the
tool's `except ValueError` handler does NOT catch. -/
inductive PyFault where
  | valueError (e : Err)
  | attributeError
  | typeError
deriving DecidableEq

/-- Embedding of `parse_args` (source lines 204-220).  `json.loads` is an
oracle `jsonLoads`; `none` models a `json.JSONDecodeError`.  A decoded
non-array and a decode failure both raise `ValueError`, categorized
InvalidInput; a value that is already a sequence passes through unchanged. -/
def parse_args_dyn (jsonLoads : String → Option JVal) :
    String ⊕ List JVal → Except Err (List JVal)
  | .inl s =>
    match jsonLoads s with
    | some (.arr xs) => .ok xs
    | some _ => .error .invalidInput
    | none => .error .invalidInput
  | .inr l => .ok l

/-- The `for arg in args` loop of `validate_args` on dynamically typed
tokens: `arg.split("=")` on a non-string raises AttributeError (source line
96 evaluated on, e.g., an int). -/
def checkTokensDyn (dangerous : List String) :
    List JVal → Except PyFault Unit
  | [] => .ok ()
  | .str s :: rest =>
    match checkToken dangerous s with
    | .ok _ => checkTokensDyn dangerous rest
    | .error e => .error (.valueError e)
  | _ :: _ => .error .attributeError

/-- Embedding of `validate_args` (source lines 68-109) on dynamically typed
argument lists, as reached from a JSON-decoded string input.  A non-string
hashable subcommand is simply not a member of the string allowlist
(CommandNotAllowed); an unhashable subcommand (a list) makes the membership
test itself raise TypeError. -/
def validate_args_dyn (allowed dangerous : List String) (args : List JVal) :
    Except PyFault (List JVal) :=
  match args with
  | [] => .error (.valueError .emptyArgs)
  | a0 :: rest =>
    let stripped := if jvalEqStr a0 "kubectl" then rest else a0 :: rest
    match stripped with
    | [] => .error (.valueError .emptyAfterKubectl)
    | command :: rest' =>
      match command with
      | .str s =>
        if allowed.contains s then
          match checkTokensDyn dangerous (command :: rest') with
          | .ok _ => .ok (command :: rest')
          | .error f => .error f
        else .error (.valueError .commandNotAllowed)
      | .num _ => .error (.valueError .commandNotAllowed)
      | .arr _ => .error .typeError

/-- Counterpart of `run_kubectl` for the dynamically typed pipeline (a
validated list is in fact all strings, since any non-string token faults in
the validation loop). -/
def run_kubectl_dyn (timeout : Nat) (args : List JVal)
    (proc : List JVal → ProcOutcome) : KResult :=
  match proc (.str "kubectl" :: args) with
  | .completed rc out err => .result (rc == 0) out err rc
  | .timedOut =>
    .errorResult false
      ("Command timed out after " ++ toString timeout ++ " seconds") "" ""
  | .raised msg => .errorResult false msg "" ""

/-- Structured outcomes the `kubectl` tool returns to its caller: either the
executor's result dictionary or the rejection dictionary
`\x7b"success": False, "error": str(e)\x7d`. -/
inductive ToolResult where
  | exec (r : KResult)
  | rejection (e : Err)
deriving DecidableEq

/-- Embedding of the `kubectl` tool (source lines 229-250): normalize, then
validate, then execute, with `except ValueError` turning a `ValueError` into
the structured rejection dictionary.  An `AttributeError` or `TypeError`
raised inside validation is NOT caught and propagates to the caller as the
`Except.error` case. -/
def kubectl_tool (allowed dangerous : List String) (timeout : Nat)
    (jsonLoads : String → Option JVal) (proc : List JVal → ProcOutcome)
    (args : String ⊕ List JVal) : Except PyFault ToolResult :=
  match parse_args_dyn jsonLoads args with
  | .error e => .ok (.rejection e)
  | .ok parsed =>
    match validate_args_dyn allowed dangerous parsed with
    | .error (.valueError e) => .ok (.rejection e)
    | .error .attributeError => .error .attributeError
    | .error .typeError => .error .typeError
    | .ok validated => .ok (.exec (run_kubectl_dyn timeout validated proc))

/-- Namespace handling of `run_image` (source lines 292-296): Python
`if namespace:` makes an absent and an empty namespace contribute nothing; a
non-empty namespace is checked against `SHELL_CHARS` and then contributes
`["-n", namespace]`. -/
def namespaceArgs (ns : Option String) : Except Err (List String) :=
  match ns with
  | none => .ok []
  | some n =>
    if n.isEmpty then .ok []
    else if containsShellChar n then .error .invalidCharacters
    else .ok ["-n", n]

/-- Command handling of `run_image` (source lines 284-287): Python
`if command:` makes an absent and an empty command list yield no parsed
command; a non-empty list is validated by `validate_command_args`.  This
models the list-typed branch; a JSON-string command goes through
`parse_args` first. -/
def parseRunCommand (command : Option (List String)) :
    Except Err (Option (List String)) :=
  match command with
  | none => .ok none
  | some cmd =>
    if cmd.isEmpty then .ok none
    else
      match validate_command_args cmd with
      | .ok _ => .ok (some cmd)
      | .error e => .error e

/-- Embedding of the `run_image` tool's validation and argv assembly (source
lines 258-314), up to the subprocess boundary: on success the returned list
is exactly the kubectl argv handed to process execution (source line 309
prepends the "kubectl" binary itself).  Note that `validate_args` is never
consulted on this path. -/
def run_image (allowedImages : List String) (name image : String)
    (ns : Option String) (command : Option (List String)) (rm : Bool) :
    Except Err (List String) :=
  match validate_pod_name name with
  | .error e => .error e
  | .ok _ =>
    match validate_image allowedImages image with
    | .error e => .error e
    | .ok _ =>
      match parseRunCommand command with
      | .error e => .error e
      | .ok parsed_command =>
        match namespaceArgs ns with
        | .error e => .error e
        | .ok nsArgs =>
          let base :=
            ["run", name, "--image=" ++ image, "--restart=Never"] ++ nsArgs
          let withRm := if rm then base ++ ["--rm", "-i"] else base
          match parsed_command with
          | some cmd => .ok (withRm ++ "--" :: cmd)
          | none => .ok withRm

end KubeRemediation

namespace KubeRemediation

theorem checkToken_eq_ok (dangerous : List String) (t : String)
    (h : flagOk dangerous t) (hs : containsShellChar t = false) :
    checkToken dangerous t = .ok () := by
  obtain ⟨h1, h2⟩ := h
  have hm : flagName t ∉ dangerous := by simpa using h1
  simp [checkToken, hm, h2, hs]

theorem checkToken_eq_invalid (dangerous : List String) (t : String)
    (h : flagOk dangerous t) (hs : containsShellChar t = true) :
    checkToken dangerous t = .error .invalidCharacters := by
  obtain ⟨h1, h2⟩ := h
  have hm : flagName t ∉ dangerous := by simpa using h1
  simp [checkToken, hm, h2, hs]

theorem checkToken_eq_flagErr (dangerous : List String) (t : String)
    (h : dangerous.contains (flagName t) = true ∨ flagName t = "--overrides") :
    checkToken dangerous t = .error .flagNotPermitted := by
  rcases h with h | h
  · have hm : flagName t ∈ dangerous := by simpa using h
    simp [checkToken, hm]
  · cases hc : dangerous.contains (flagName t)
    · have hm : flagName t ∉ dangerous := by simpa using hc
      simp [checkToken, hm, h]
    · have hm : flagName t ∈ dangerous := by simpa using hc
      simp [checkToken, hm]

theorem checkTokens_eq_ok (dangerous : List String) (l : List String)
    (h : ∀ t ∈ l, flagOk dangerous t ∧ containsShellChar t = false) :
    checkTokens dangerous l = .ok () := by
  induction l with
  | nil => rfl
  | cons a rest ih =>
    obtain ⟨ha, hs⟩ := h a (by simp)
    simp only [checkTokens, checkToken_eq_ok dangerous a ha hs]
    exact ih (fun t ht => h t (by simp [ht]))

theorem checkTokens_eq_invalid (dangerous : List String) (l : List String)
    (hflag : ∀ t ∈ l, flagOk dangerous t)
    (hmeta : ∃ t ∈ l, containsShellChar t = true) :
    checkTokens dangerous l = .error .invalidCharacters := by
  induction l with
  | nil => simp at hmeta
  | cons a rest ih =>
    have ha := hflag a (by simp)
    cases hs : containsShellChar a
    · simp only [checkTokens, checkToken_eq_ok dangerous a ha hs]
      refine ih (fun t ht => hflag t (by simp [ht])) ?_
      obtain ⟨t, ht, hct⟩ := hmeta
      rcases List.mem_cons.mp ht with rfl | ht'
      · rw [hs] at hct; exact absurd hct (by simp)
      · exact ⟨t, ht', hct⟩
    · simp only [checkTokens, checkToken_eq_invalid dangerous a ha hs]

theorem checkTokens_eq_flagErr (dangerous : List String)
    (pre : List String) (tok : String) (post : List String)
    (hpre : ∀ t ∈ pre, flagOk dangerous t ∧ containsShellChar t = false)
    (htok : dangerous.contains (flagName tok) = true ∨
      flagName tok = "--overrides") :
    checkTokens dangerous (pre ++ tok :: post) = .error .flagNotPermitted := by
  induction pre with
  | nil => simp only [List.nil_append, checkTokens,
      checkToken_eq_flagErr dangerous tok htok]
  | cons a rest ih =>
    obtain ⟨ha, hs⟩ := hpre a (by simp)
    simp only [List.cons_append, checkTokens,
      checkToken_eq_ok dangerous a ha hs]
    exact ih (fun t ht => hpre t (by simp [ht]))

theorem containsShellChar_of_specReserved (t : String)
    (h : containsSpecReserved t = true) : containsShellChar t = true := by
  unfold containsSpecReserved at h
  unfold containsShellChar
  rcases List.any_eq_true.mp h with ⟨c, hc, hmem⟩
  refine List.any_eq_true.mpr ⟨c, ?_, hmem⟩
  simp only [specReservedChars, List.mem_cons, List.not_mem_nil,
    or_false] at hc
  rcases hc with rfl | rfl | rfl | rfl | rfl | rfl | rfl | rfl | rfl <;>
    decide

theorem validate_args_reduces (allowed dangerous : List String)
    (args : List String) (cmd : String) (rest : List String)
    (hstrip : stripKubectl args = cmd :: rest)
    (hcmd : allowed.contains cmd = true) :
    validate_args allowed dangerous args =
      match checkTokens dangerous (cmd :: rest) with
      | .ok _ => .ok (cmd :: rest)
      | .error e => .error e := by
  cases args with
  | nil => simp [stripKubectl] at hstrip
  | cons a as =>
    have hm : cmd ∈ allowed := by simpa using hcmd
    simp only [validate_args, hstrip]
    simp [hm]

end KubeRemediation

namespace KubeRemediation

/-- Claim C2 (counterexample).  The token "get;pods" contains a reserved
metacharacter (semicolon), yet validation rejects the vector ["get;pods"]
with CommandNotAllowed, not InvalidCharacters, because the subcommand
allowlist check runs before the metacharacter check. -/
theorem c2_counterexample_subcommand_checked_first :
    containsSpecReserved "get;pods" = true ∧
    validate_args defaultAllowedCommands defaultDangerousFlags ["get;pods"] =
      .error .commandNotAllowed ∧
    Err.commandNotAllowed ≠ Err.invalidCharacters :=
  ⟨by decide, by decide, by decide⟩

/-- Claim C2 as amended: a vector whose stripped form is non-empty, whose
subcommand is in the allowlist, in which every token passes the
dangerous-flag and `--overrides` checks, and which contains a token with one
of the spec's nine reserved metacharacters, is rejected with
InvalidCharacters. -/
theorem c2_amended_metachar_rejection (allowed dangerous : List String)
    (args : List String) (cmd : String) (rest : List String)
    (hstrip : stripKubectl args = cmd :: rest)
    (hcmd : allowed.contains cmd = true)
    (hflags : ∀ t ∈ cmd :: rest, flagOk dangerous t)
    (hmeta : ∃ t ∈ cmd :: rest, containsSpecReserved t = true) :
    validate_args allowed dangerous args = .error .invalidCharacters := by
  rw [validate_args_reduces allowed dangerous args cmd rest hstrip hcmd]
  obtain ⟨t, ht, hct⟩ := hmeta
  rw [checkTokens_eq_invalid dangerous (cmd :: rest) hflags
    ⟨t, ht, containsShellChar_of_specReserved t hct⟩]

/-- Witness for C2's amended theorem at a concrete vector. -/
theorem c2_witness :
    validate_args defaultAllowedCommands defaultDangerousFlags
      ["get", "pods;evil"] = .error .invalidCharacters :=
  c2_amended_metachar_rejection defaultAllowedCommands defaultDangerousFlags
    ["get", "pods;evil"] "get" ["pods;evil"]
    (by decide) (by decide) (by decide) (by decide)

/-- Claim C3 (counterexample).  The vector ["get", "--overrides"] has its
subcommand in the allowlist, no token whose flag name is in the (default)
dangerous-flag set, and no token with a reserved metacharacter, yet
`validate_args` rejects it with FlagNotPermitted instead of accepting it:
`--overrides` is blocked independently of the dangerous-flag set. -/
theorem c3_counterexample_overrides :
    defaultAllowedCommands.contains "get" = true ∧
    defaultDangerousFlags.contains (flagName "--overrides") = false ∧
    containsShellChar "get" = false ∧
    containsShellChar "--overrides" = false ∧
    validate_args defaultAllowedCommands defaultDangerousFlags
      ["get", "--overrides"] = .error .flagNotPermitted :=
  ⟨by decide, by decide, by decide, by decide, by decide⟩

/-- Claim C3 as amended: a vector whose stripped form has its subcommand in
the allowlist, in which no token has a dangerous flag name or the flag name
`--overrides`, and no token contains a character of the implemented
metacharacter set (which includes the double quote), is accepted, and the
result is exactly the stripped vector, order and tokens unchanged. -/
theorem c3_amended_clean_vector_accepted (allowed dangerous : List String)
    (args : List String) (cmd : String) (rest : List String)
    (hstrip : stripKubectl args = cmd :: rest)
    (hcmd : allowed.contains cmd = true)
    (hclean : ∀ t ∈ cmd :: rest,
      flagOk dangerous t ∧ containsShellChar t = false) :
    validate_args allowed dangerous args = .ok (cmd :: rest) := by
  rw [validate_args_reduces allowed dangerous args cmd rest hstrip hcmd]
  rw [checkTokens_eq_ok dangerous (cmd :: rest) hclean]

/-- Witness for C3's amended theorem: the leading "kubectl" token is
stripped and the remaining tokens come back unchanged. -/
theorem c3_witness :
    validate_args defaultAllowedCommands defaultDangerousFlags
      ["kubectl", "get", "pods", "-n", "default"] =
      .ok ["get", "pods", "-n", "default"] :=
  c3_amended_clean_vector_accepted defaultAllowedCommands
    defaultDangerousFlags ["kubectl", "get", "pods", "-n", "default"]
    "get" ["pods", "-n", "default"] (by decide) (by decide) (by decide)

/-- Claim C6 (counterexample).  The vector ["get", "a;b", "--token"] has an
allowed subcommand and contains the dangerous flag "--token", yet it is
rejected with InvalidCharacters, not FlagNotPermitted, because an earlier
token's metacharacter check fires first. -/
theorem c6_counterexample_earlier_metachar :
    defaultAllowedCommands.contains "get" = true ∧
    defaultDangerousFlags.contains (flagName "--token") = true ∧
    validate_args defaultAllowedCommands defaultDangerousFlags
      ["get", "a;b", "--token"] = .error .invalidCharacters ∧
    Err.invalidCharacters ≠ Err.flagNotPermitted :=
  ⟨by decide, by decide, by decide, by decide⟩

/-- Claim C6 as amended: if the stripped vector has an allowed subcommand and
splits as `pre ++ tok :: post` where every token of `pre` passes the flag and
metacharacter checks and `tok`'s flag name (the part before the first `=`, or
the whole token) is dangerous or equals `--overrides`, then `validate_args`
rejects with FlagNotPermitted; both the `--flag` and `--flag=value` forms are
covered since only the flag name is tested. -/
theorem c6_amended_flag_rejection (allowed dangerous : List String)
    (args : List String) (cmd : String) (rest : List String)
    (pre : List String) (tok : String) (post : List String)
    (hstrip : stripKubectl args = cmd :: rest)
    (hsplit : cmd :: rest = pre ++ tok :: post)
    (hcmd : allowed.contains cmd = true)
    (hpre : ∀ t ∈ pre, flagOk dangerous t ∧ containsShellChar t = false)
    (htok : dangerous.contains (flagName tok) = true ∨
      flagName tok = "--overrides") :
    validate_args allowed dangerous args = .error .flagNotPermitted := by
  rw [validate_args_reduces allowed dangerous args cmd rest hstrip hcmd,
    hsplit, checkTokens_eq_flagErr dangerous pre tok post hpre htok]

/-- Witness for C6's amended theorem: both the bare and the `=value` form of
a dangerous flag are rejected with FlagNotPermitted. -/
theorem c6_witness :
    validate_args defaultAllowedCommands defaultDangerousFlags
      ["get", "pods", "--token=secret123"] = .error .flagNotPermitted ∧
    validate_args defaultAllowedCommands defaultDangerousFlags
      ["get", "pods", "--context"] = .error .flagNotPermitted :=
  ⟨c6_amended_flag_rejection defaultAllowedCommands defaultDangerousFlags
      ["get", "pods", "--token=secret123"] "get" ["pods", "--token=secret123"]
      ["get", "pods"] "--token=secret123" []
      (by decide) (by decide) (by decide) (by decide) (by decide),
   c6_amended_flag_rejection defaultAllowedCommands defaultDangerousFlags
      ["get", "pods", "--context"] "get" ["pods", "--context"]
      ["get", "pods"] "--context" []
      (by decide) (by decide) (by decide) (by decide) (by decide)⟩

/-- Claim C8.  `run_kubectl` maps each process outcome to a structured
result: on normal completion the success field is the test "return code is
zero" together with the captured stdout, stderr and return code; on timeout
and on spawn failure it is the error dictionary with success false.  In each
case a value of `KResult` is returned, never an exception. -/
theorem c8_executor_outcome_mapping (timeout : Nat) (args : List String)
    (proc : List String → ProcOutcome) (rc : Int) (out err msg : String) :
    (proc ("kubectl" :: args) = .completed rc out err →
      run_kubectl timeout args proc = .result (rc == 0) out err rc) ∧
    ((rc == 0) = true ↔ rc = 0) ∧
    (proc ("kubectl" :: args) = .timedOut →
      run_kubectl timeout args proc =
        .errorResult false
          ("Command timed out after " ++ toString timeout ++ " seconds")
          "" "") ∧
    (proc ("kubectl" :: args) = .raised msg →
      run_kubectl timeout args proc = .errorResult false msg "" "") := by
  refine ⟨?_, beq_iff_eq, ?_, ?_⟩ <;>
    · intro h
      unfold run_kubectl
      rw [h]

/-- Witness for C8 at concrete process outcomes. -/
theorem c8_witness :
    run_kubectl 60 ["get", "pods"] (fun _ => .completed 0 "ok" "") =
      .result true "ok" "" 0 ∧
    run_kubectl 60 ["get", "pods"] (fun _ => .timedOut) =
      .errorResult false "Command timed out after 60 seconds" "" "" ∧
    run_kubectl 60 ["get", "pods"] (fun _ => .raised "No such file") =
      .errorResult false "No such file" "" "" :=
  ⟨(c8_executor_outcome_mapping 60 ["get", "pods"]
      (fun _ => .completed 0 "ok" "") 0 "ok" "" "").1 rfl,
   ((c8_executor_outcome_mapping 60 ["get", "pods"]
      (fun _ => .timedOut) 0 "" "" "").2.2.1 rfl).trans (by decide),
   (c8_executor_outcome_mapping 60 ["get", "pods"]
      (fun _ => .raised "No such file") 0 "" "" "No such file").2.2.2 rfl⟩

/-- Claim C9.  The Normalizer passes a list through unchanged; for a string
input it returns the decoded array when `json.loads` yields an array, and
rejects with InvalidInput when decoding fails or yields a non-array. -/
theorem c9_normalizer (jsonLoads : String → Option JVal) (s : String)
    (L : List JVal) (v : JVal) :
    (parse_args_dyn jsonLoads (.inr L) = .ok L) ∧
    (jsonLoads s = some (.arr L) →
      parse_args_dyn jsonLoads (.inl s) = .ok L) ∧
    (jsonLoads s = none →
      parse_args_dyn jsonLoads (.inl s) = .error .invalidInput) ∧
    (jsonLoads s = some v → (∀ xs, v ≠ .arr xs) →
      parse_args_dyn jsonLoads (.inl s) = .error .invalidInput) := by
  refine ⟨rfl, ?_, ?_, ?_⟩
  · intro h; simp [parse_args_dyn, h]
  · intro h; simp [parse_args_dyn, h]
  · intro h hv
    cases v with
    | arr xs => exact absurd rfl (hv xs)
    | str t => simp [parse_args_dyn, h]
    | num n => simp [parse_args_dyn, h]

/-- Witness for C9 at concrete decoder behaviors. -/
theorem c9_witness :
    parse_args_dyn (fun _ => none) (.inr [JVal.str "get", JVal.str "pods"]) =
      .ok [JVal.str "get", JVal.str "pods"] ∧
    parse_args_dyn (fun _ => some (.arr [JVal.str "get", JVal.str "pods"]))
      (.inl "[\"get\", \"pods\"]") = .ok [JVal.str "get", JVal.str "pods"] ∧
    parse_args_dyn (fun _ => none) (.inl "not json") =
      .error .invalidInput ∧
    parse_args_dyn (fun _ => some (.str "get")) (.inl "\"get\"") =
      .error .invalidInput :=
  ⟨(c9_normalizer (fun _ => none) "" [JVal.str "get", JVal.str "pods"]
      (.str "")).1,
   (c9_normalizer (fun _ => some (.arr [JVal.str "get", JVal.str "pods"]))
      "[\"get\", \"pods\"]" [JVal.str "get", JVal.str "pods"]
      (.str "")).2.1 rfl,
   (c9_normalizer (fun _ => none) "not json" [] (.str "")).2.2.1 rfl,
   (c9_normalizer (fun _ => some (.str "get")) "\"get\"" [] (.str "get")).2.2.2
     rfl (fun xs h => by cases h)⟩

/-- Claim C7.  The claim says no input of the declared type can make the
tool propagate an unhandled fault.  The string input `'["get", 1]'` IS of
the declared type `Union[str, List[str]]`: it decodes to the array
`["get", 1]`, validation reaches `(1).split("=")`, and the resulting
AttributeError is not caught by the tool's `except ValueError` handler.
This theorem evaluates the embedded tool at that input with a decoder oracle
behaving like `json.loads` on it. -/
theorem c7_unhandled_fault_eval :
    kubectl_tool defaultAllowedCommands defaultDangerousFlags 60
      (fun _ => some (.arr [JVal.str "get", JVal.num 1]))
      (fun _ => .completed 0 "" "")
      (.inl "[\"get\", 1]") = .error .attributeError ∧
    defaultAllowedCommands.contains "get" = true :=
  ⟨rfl, by decide⟩

/-- Claim C10.  When name, image, namespace and command validation all pass,
`run_image` hands process execution exactly the vector
`["run", name, "--image=" ++ image, "--restart=Never"]`, then `["-n", ns]`
for a non-empty namespace, then `["--rm", "-i"]` when cleanup is requested,
then `"--" :: command` for a non-empty command; the subcommand "run" is not
in the default allowlist, so this vector is produced without any
allowed-commands check; and an empty namespace or empty command list behaves
exactly as an absent one. -/
theorem c10_run_image_vector (allowedImages : List String)
    (name image : String) (ns : Option String)
    (command : Option (List String)) (rm : Bool)
    (hname : validate_pod_name name = .ok ())
    (himg : validate_image allowedImages image = .ok ())
    (hcmd : ∀ c, command = some c → validate_command_args c = .ok ())
    (hns : ∀ n, ns = some n → containsShellChar n = false) :
    (run_image allowedImages name image ns command rm = .ok (
      ["run", name, "--image=" ++ image, "--restart=Never"]
      ++ (match ns with
          | some n => if n.isEmpty then [] else ["-n", n]
          | none => [])
      ++ (if rm then ["--rm", "-i"] else [])
      ++ (match command with
          | some c => if c.isEmpty then [] else "--" :: c
          | none => []))) ∧
    defaultAllowedCommands.contains "run" = false ∧
    run_image allowedImages name image (some "") command rm =
      run_image allowedImages name image none command rm ∧
    run_image allowedImages name image ns (some []) rm =
      run_image allowedImages name image ns none rm := by
  have hpc : parseRunCommand command = .ok
      (match command with
       | some c => if c.isEmpty then none else some c
       | none => none) := by
    cases command with
    | none => rfl
    | some c =>
      cases hce : c.isEmpty
      · simp [parseRunCommand, hce, hcmd c rfl]
      · simp [parseRunCommand, hce]
  refine ⟨?_, by decide, ?_, ?_⟩
  · have hna : namespaceArgs ns = .ok
        (match ns with
         | some n => if n.isEmpty then [] else ["-n", n]
         | none => []) := by
      cases ns with
      | none => rfl
      | some n =>
        cases hne : n.isEmpty
        · simp [namespaceArgs, hne, hns n rfl]
        · simp [namespaceArgs, hne]
    rcases command with _ | c
    · rcases ns with _ | n <;> cases rm <;>
        simp_all [run_image]
    · rcases ns with _ | n <;> cases rm <;> cases hce : c.isEmpty <;>
        simp_all [run_image]
  · have h1 : namespaceArgs (some "") = namespaceArgs none := rfl
    simp only [run_image, h1]
  · have h2 : parseRunCommand (some []) = parseRunCommand none := rfl
    simp only [run_image, h2]

/-- Witness for C10 at concrete inputs: a full vector with namespace,
cleanup and trailing command. -/
theorem c10_witness :
    run_image ["alpine"] "debug-pod" "alpine" (some "default")
      (some ["sh", "-c", "env"]) true =
      .ok ["run", "debug-pod", "--image=alpine", "--restart=Never",
        "-n", "default", "--rm", "-i", "--", "sh", "-c", "env"] :=
  ((c10_run_image_vector ["alpine"] "debug-pod" "alpine" (some "default")
      (some ["sh", "-c", "env"]) true (by decide) (by decide)
      (by intro c hc; cases hc; decide)
      (by intro n hn; cases hn; decide)).1).trans (by decide)

end KubeRemediation

namespace KubeRemediation

/-- Claim C1.  The claim states that a token containing a double quote is NOT
rejected with InvalidCharacters because double quote is not in the reserved
metacharacter set.  In the source, `SHELL_CHARS` does contain the double
quote, so the very input the module's own test suite expects to be accepted
(`["get", "pods", "-l", "app=\"nginx\""]`, test
`test_label_selector_with_quotes_works`) is rejected with InvalidCharacters,
and `validate_command_args` rejects double-quoted command tokens too.  This
theorem evaluates the embedded code at that failing input. -/
theorem c1_double_quote_is_rejected :
    validate_args defaultAllowedCommands defaultDangerousFlags
      ["get", "pods", "-l", "app=\"nginx\""] = .error .invalidCharacters ∧
    validate_command_args ["echo", "\"hello\""] = .error .invalidCharacters ∧
    SHELL_CHARS.contains (Char.ofNat 34) = true := by
  refine ⟨by decide, by decide, by decide⟩

/-- Claim C4 (counterexample).  The claim states that any name containing a
character outside `[a-z0-9-]` is rejected; but `"aB"` contains `'B'`, which is
outside that class, and `validate_pod_name` accepts it (Python `isalnum`
admits uppercase letters). -/
theorem c4_counterexample_uppercase_accepted :
    validate_pod_name "aB" = .ok () ∧
    "aB".toList.all (fun c => c.isLower || c.isDigit || c == '-') = false :=
  ⟨by decide, by decide⟩

/-- Claim C4 as amended: `validate_pod_name` accepts a name exactly when it is
non-empty, does not start with a hyphen, consists only of alphanumeric
characters (uppercase letters included, per Python `isalnum`) and hyphens, has
length at most 253, and starts with a lowercase letter or digit. -/
theorem c4_amended_name_validation (name : String) :
    validate_pod_name name = .ok () ↔
      (name.toList ≠ [] ∧
       startsWithHyphen name.toList = false ∧
       name.toList.all (fun c => c.isAlphanum || c == '-') = true ∧
       name.toList.length ≤ 253 ∧
       firstIsLowerOrDigit name.toList = true) := by
  unfold validate_pod_name
  split_ifs with h1 h2 h3 h4 h5
  · constructor
    · intro h; exact absurd h (by simp)
    · rintro ⟨hne, -, -, -, -⟩; exact hne (by simpa using h1)
  · constructor
    · intro h; exact absurd h (by simp)
    · rintro ⟨-, hh, -, -, -⟩; rw [h2] at hh; exact absurd hh (by simp)
  · constructor
    · intro h; exact absurd h (by simp)
    · rintro ⟨-, -, ha, -, -⟩
      rw [Bool.not_eq_true'] at h3; rw [h3] at ha; exact absurd ha (by simp)
  · constructor
    · intro h; exact absurd h (by simp)
    · rintro ⟨-, -, -, hl, -⟩; omega
  · constructor
    · intro h; exact absurd h (by simp)
    · rintro ⟨-, -, -, -, hf⟩
      rw [Bool.not_eq_true'] at h5; rw [h5] at hf; exact absurd hf (by simp)
  · refine iff_of_true rfl ⟨?_, ?_, ?_, ?_, ?_⟩
    · intro hc; exact h1 (by rw [hc]; rfl)
    · cases hb : startsWithHyphen name.toList
      · rfl
      · exact absurd hb h2
    · cases hb : name.toList.all (fun c => c.isAlphanum || c == '-')
      · exact absurd (by rw [hb]; rfl) h3
      · rfl
    · omega
    · cases hb : firstIsLowerOrDigit name.toList
      · exact absurd (by rw [hb]; rfl) h5
      · rfl

/-- Witness for C4's amended theorem at the concrete name "web-01". -/
theorem c4_witness : validate_pod_name "web-01" = .ok () :=
  (c4_amended_name_validation "web-01").mpr (by decide)

/-- Claim C5.  `validate_image` rejects every image with FeatureDisabled when
the configured allowlist is empty; when it is non-empty it accepts exactly the
exact string members, and rejects non-members with ImageNotAllowed. -/
theorem c5_image_allowlist (allowedImages : List String) (image : String) :
    validate_image [] image = .error .featureDisabled ∧
    (allowedImages ≠ [] →
      (validate_image allowedImages image = .ok () ↔
        allowedImages.contains image = true)) ∧
    (allowedImages ≠ [] → allowedImages.contains image = false →
      validate_image allowedImages image = .error .imageNotAllowed) := by
  refine ⟨by simp [validate_image], ?_, ?_⟩
  · intro h
    have he : allowedImages.isEmpty = false := by
      cases allowedImages
      · exact absurd rfl h
      · rfl
    cases hc : allowedImages.contains image
    · have hm : image ∉ allowedImages := by simpa using hc
      simp [validate_image, he, hm]
    · have hm : image ∈ allowedImages := by simpa using hc
      simp [validate_image, he, hm]
  · intro h hc
    have he : allowedImages.isEmpty = false := by
      cases allowedImages
      · exact absurd rfl h
      · rfl
    have hm : image ∉ allowedImages := by simpa using hc
    simp [validate_image, he, hm]

/-- Witness for C5 at a concrete allowlist and image. -/
theorem c5_witness :
    validate_image ["nginx:latest"] "nginx:latest" = .ok () ∧
    validate_image [] "alpine" = .error .featureDisabled :=
  ⟨((c5_image_allowlist ["nginx:latest"] "nginx:latest").2.1
      (by decide)).mpr (by decide),
   (c5_image_allowlist [] "alpine").1⟩

end KubeRemediation
